import Mathlib

/-!
Shallow embedding of the Flux shared data/store module
(`packages/shared/src/types.ts`) and the quote-computation helpers from the
quotes page (`FIREBASE_SETUP.md`).  The TypeScript store mutators operate on a
module-global `db.data`; here every operation takes the `Store` explicitly and
returns the updated `Store` together with its TypeScript return value.
Persistence (`db.write()`) is outside the embedded core.  Timestamps
(`new Date().toISOString()`) are passed in as an explicit `now : String`.
JavaScript numbers are modelled as rationals; `Math.round` is
round-half-toward-positive-infinity, i.e. `⌊x + 1/2⌋`.
-/

namespace Flux

/-- Task record (`type Task` in types.ts); optional fields are `Option`. -/
structure Task where
  id : String
  title : String
  status : String
  depends_on : List String
  notes : String
  epic_id : Option String := none
  project_id : String
  agent : Option String := none
  archived : Option Bool := none
deriving DecidableEq, Repr

/-- Epic record (`type Epic` in types.ts). -/
structure Epic where
  id : String
  title : String
  status : String
  depends_on : List String
  notes : String
  project_id : String
deriving DecidableEq, Repr

/-- Project record (`type Project` in types.ts). -/
structure Project where
  id : String
  name : String
  description : Option String := none
deriving DecidableEq, Repr

/-- Product record (`type Product` in types.ts); prices are JS numbers,
modelled as rationals. -/
structure Product where
  id : String
  sku : String
  name : String
  category : String
  subcategory : String
  brand : String
  costPrice : ℚ
  sellPrice : ℚ
  currency : String
  description : String
  fitment : List String
  isActive : Bool
  createdAt : String
  updatedAt : String
deriving DecidableEq, Repr

/-- Nested address object of a Customer. -/
structure CustomerAddress where
  street : Option String := none
  city : Option String := none
  state : Option String := none
  postcode : Option String := none
  country : Option String := none
deriving DecidableEq, Repr

/-- Customer record (`type Customer` in types.ts); `type` is the
`individual | business` union, kept as a string. -/
structure Customer where
  id : String
  type : String
  name : String
  contactName : Option String := none
  email : Option String := none
  phone : Option String := none
  mobile : Option String := none
  address : Option CustomerAddress := none
  abn : Option String := none
  tags : List String := []
  source : Option String := none
  notes : Option String := none
  isActive : Bool
  createdAt : String
  updatedAt : String
deriving DecidableEq, Repr

/-- Quote line item (`type QuoteLineItem` in types.ts). -/
structure QuoteLineItem where
  id : String
  productId : String
  productSku : String
  productName : String
  quantity : ℚ
  unitPrice : ℚ
  discount : ℚ
  lineTotal : ℚ
deriving DecidableEq, Repr

/-- Quote record (`type Quote` in types.ts); `status` is the
`draft|sent|accepted|rejected|expired` union, kept as a string. -/
structure Quote where
  id : String
  quoteNumber : String
  customerId : String
  customerName : String
  lineItems : List QuoteLineItem
  subtotal : ℚ
  taxRate : ℚ
  taxAmount : ℚ
  total : ℚ
  status : String
  issueDate : String
  validUntil : String
  notes : Option String := none
  terms : Option String := none
  createdAt : String
  updatedAt : String
deriving DecidableEq, Repr

/-- Webhook subscription record (`type Webhook` in types.ts); event types are
kept as strings. -/
structure Webhook where
  id : String
  name : String
  url : String
  secret : Option String := none
  events : List String
  enabled : Bool
  project_id : Option String := none
  created_at : String
  updated_at : String
deriving DecidableEq, Repr

/-- The `data` member of a webhook payload (`WebhookPayload['data']` in
types.ts): at most one entity snapshot per kind.  The `previous` member is a
`Partial<...>` union of entity snapshots in the source; no core logic ever
inspects it, so it is carried as an uninterpreted string. -/
structure WebhookEventData where
  project : Option Project := none
  epic : Option Epic := none
  task : Option Task := none
  product : Option Product := none
  customer : Option Customer := none
  quote : Option Quote := none
  previous : Option String := none
deriving DecidableEq, Repr

/-- Webhook payload (`type WebhookPayload` in types.ts). -/
structure WebhookPayload where
  event : String
  timestamp : String
  webhook_id : String
  data : WebhookEventData
deriving DecidableEq, Repr

/-- Webhook delivery record (`type WebhookDelivery` in types.ts); `status` is
the `pending|success|failed` union, kept as a string. -/
structure WebhookDelivery where
  id : String
  webhook_id : String
  event : String
  payload : WebhookPayload
  status : String
  response_code : Option Int := none
  response_body : Option String := none
  error : Option String := none
  attempts : Nat
  created_at : String
  delivered_at : Option String := none
deriving DecidableEq, Repr

/-- The JSON document root (`type Store` / `StoreWithWebhooks` in types.ts).
The optional collections (`products?`, …) default to `[]`, matching the
`ensure*Array` helpers that initialise them on first use. -/
structure Store where
  projects : List Project
  epics : List Epic
  tasks : List Task
  products : List Product := []
  customers : List Customer := []
  quotes : List Quote := []
  webhooks : List Webhook := []
  webhook_deliveries : List WebhookDelivery := []
deriving DecidableEq, Repr

/-- Replace the first element satisfying `p` by its image under `f`, returning
the replaced value; models `findIndex` + in-place assignment returning the
updated record. -/
def updateFirst (p : α → Bool) (f : α → α) : List α → Option α × List α
  | [] => (none, [])
  | x :: xs =>
    if p x then (some (f x), f x :: xs)
    else
      let r := updateFirst p f xs
      (r.1, x :: r.2)

/-- JavaScript truthiness of an optional string: `undefined` and the empty
string are falsy. -/
def jsTruthy (o : Option String) : Bool := o.getD "" != ""

/-! ### Project operations -/

/-- `getProject(id)`. -/
def getProject (s : Store) (id : String) : Option Project :=
  s.projects.find? (fun p => p.id == id)

/-- `deleteProject(id)`: removes the project found by id (no-op when absent)
and filters out all epics and tasks of that project. -/
def deleteProject (s : Store) (id : String) : Store :=
  match s.projects.find? (fun p => p.id == id) with
  | none => s
  | some _ =>
    { s with
      projects := s.projects.eraseP (fun p => p.id == id)
      epics := s.epics.filter (fun e => e.project_id != id)
      tasks := s.tasks.filter (fun t => t.project_id != id) }

/-! ### Epic operations -/

/-- `deleteEpic(id)`: removes the epic found by id, clears `epic_id` on tasks
that referenced it, returns whether the epic existed. -/
def deleteEpic (s : Store) (id : String) : Bool × Store :=
  match s.epics.find? (fun e => e.id == id) with
  | none => (false, s)
  | some _ =>
    (true,
      { s with
        epics := s.epics.eraseP (fun e => e.id == id)
        tasks := s.tasks.map (fun t =>
          if t.epic_id == some id then { t with epic_id := none } else t) })

/-! ### Task operations -/

/-- `getTask(id)`. -/
def getTask (s : Store) (id : String) : Option Task :=
  s.tasks.find? (fun t => t.id == id)

/-- Partial update object for a task (`Partial<Omit<Task,'id'>>`); a `some`
field is present in the update and overrides the prior value. -/
structure TaskUpdate where
  title : Option String := none
  status : Option String := none
  depends_on : Option (List String) := none
  notes : Option String := none
  epic_id : Option (Option String) := none
  project_id : Option String := none
  agent : Option (Option String) := none
  archived : Option (Option Bool) := none
deriving DecidableEq, Repr

/-- Spread-merge `{ ...task, ...updates }`. -/
def applyTaskUpdate (t : Task) (u : TaskUpdate) : Task :=
  { t with
    title := u.title.getD t.title
    status := u.status.getD t.status
    depends_on := u.depends_on.getD t.depends_on
    notes := u.notes.getD t.notes
    epic_id := u.epic_id.getD t.epic_id
    project_id := u.project_id.getD t.project_id
    agent := u.agent.getD t.agent
    archived := u.archived.getD t.archived }

/-- `updateTask(id, updates)`: merge-update the task found by id, returning
the updated task, or `undefined` (here `none`) when the id is unknown. -/
def updateTask (s : Store) (id : String) (u : TaskUpdate) : Option Task × Store :=
  let r := updateFirst (fun t => t.id == id) (fun t => applyTaskUpdate t u) s.tasks
  match r.1 with
  | none => (none, s)
  | some t => (some t, { s with tasks := r.2 })

/-- `deleteTask(id)`: removes the task found by id, then removes the first
occurrence of `id` (`indexOf` + single `splice`) from every remaining task's
`depends_on`; returns whether the task existed. -/
def deleteTask (s : Store) (id : String) : Bool × Store :=
  match s.tasks.find? (fun t => t.id == id) with
  | none => (false, s)
  | some _ =>
    let removed := s.tasks.eraseP (fun t => t.id == id)
    (true, { s with tasks := removed.map (fun t => { t with depends_on := t.depends_on.erase id }) })

/-- `isTaskBlocked(taskId)`: false for an unknown id or an empty
`depends_on`; otherwise true iff some dependency id resolves to a task whose
status is not `done` (a dangling id contributes `false`). -/
def isTaskBlocked (s : Store) (taskId : String) : Bool :=
  match s.tasks.find? (fun t => t.id == taskId) with
  | none => false
  | some task =>
    if task.depends_on.isEmpty then false
    else task.depends_on.any (fun depId =>
      match s.tasks.find? (fun t => t.id == depId) with
      | some dep => dep.status != "done"
      | none => false)

/-! ### Archive operations -/

/-- The archiving condition of `archiveDoneTasks`: in the project, status
`done`, and not already archived (JS `!task.archived`). -/
def shouldArchive (projectId : String) (t : Task) : Bool :=
  t.project_id == projectId && t.status == "done" && !(t.archived.getD false)

/-- `archiveDoneTasks(projectId)`: sets `archived = true` on every matching
task and returns how many were archived. -/
def archiveDoneTasks (s : Store) (projectId : String) : Nat × Store :=
  (s.tasks.countP (shouldArchive projectId),
    { s with tasks := s.tasks.map (fun t =>
        if shouldArchive projectId t then { t with archived := some true } else t) })

/-! ### Webhook operations -/

/-- `deleteWebhook(id)`: removes the webhook found by id and every delivery
record with that `webhook_id`; returns whether the webhook existed. -/
def deleteWebhook (s : Store) (id : String) : Bool × Store :=
  match s.webhooks.find? (fun w => w.id == id) with
  | none => (false, s)
  | some _ =>
    (true,
      { s with
        webhooks := s.webhooks.eraseP (fun w => w.id == id)
        webhook_deliveries := s.webhook_deliveries.filter (fun d => d.webhook_id != id) })

/-- The matching filter inside `triggerWebhooks`: skip when disabled, when the
event type is not subscribed, or when both the webhook's `project_id` and the
event's `projectId` are truthy (present and non-empty) yet different. -/
def webhookMatches (w : Webhook) (event : String) (projectId : Option String) : Bool :=
  if !w.enabled then false
  else if !(w.events.contains event) then false
  else if jsTruthy w.project_id && jsTruthy projectId && w.project_id != projectId then false
  else true

/-- The registered dispatch handler (`WebhookEventHandler`); a rejected or
throwing invocation is an `Except.error`. -/
def WebhookEventHandler : Type :=
  String → WebhookPayload → Webhook → Except String Unit

/-- The per-webhook dispatch loop of `triggerWebhooks`: build the payload and
invoke the handler inside `try/catch`; an error is logged and the loop
continues.  Returns one `(webhook id, succeeded?)` entry per invocation. -/
def dispatchAll (h : WebhookEventHandler) (event now : String)
    (data : WebhookEventData) : List Webhook → List (String × Bool)
  | [] => []
  | w :: ws =>
    let payload : WebhookPayload :=
      { event := event, timestamp := now, webhook_id := w.id, data := data }
    match h event payload w with
    | Except.ok _ => (w.id, true) :: dispatchAll h event now data ws
    | Except.error _ => (w.id, false) :: dispatchAll h event now data ws

/-- `triggerWebhooks(event, data, projectId?)`: no-op without a registered
handler; otherwise dispatch to every webhook passing `webhookMatches`,
catching handler failures per webhook.  Returns the invocation log. -/
def triggerWebhooks (handler : Option WebhookEventHandler) (now : String)
    (s : Store) (event : String) (data : WebhookEventData)
    (projectId : Option String) : List (String × Bool) :=
  match handler with
  | none => []
  | some h =>
    dispatchAll h event now data (s.webhooks.filter (fun w => webhookMatches w event projectId))

/-! ### Product operations -/

/-- `getProduct(id)`. -/
def getProduct (s : Store) (id : String) : Option Product :=
  s.products.find? (fun p => p.id == id)

/-- Filter object for `listProducts` (`type ProductFilters`). -/
structure ProductFilters where
  category : Option String := none
  brand : Option String := none
  isActive : Option Bool := none
  search : Option String := none
  minPrice : Option ℚ := none
  maxPrice : Option ℚ := none
deriving DecidableEq, Repr

/-- Case-insensitive substring test used by the product `search` filter;
substring containment is containment of the character lists. -/
def strContainsCI (hay needle : String) : Bool :=
  decide ( List.IsInfix needle.toLower.toList hay.toLower.toList)

/-- The per-product predicate of the `search` filter: substring match on sku,
name, description, or any fitment entry. -/
def productSearchHit (q : String) (p : Product) : Bool :=
  strContainsCI p.sku q || strContainsCI p.name q || strContainsCI p.description q
    || p.fitment.any (fun f => strContainsCI f q)

/-- `listProducts(filters?)`: applies each present filter in source order.
The string filters sit behind JS truthiness (`if (filters.category)` …), so an
empty string disables them; `isActive`/`minPrice`/`maxPrice` are explicit
`!== undefined` checks. -/
def listProducts (s : Store) (filters : Option ProductFilters) : List Product :=
  match filters with
  | none => s.products
  | some f =>
    let ps := s.products
    let ps := match f.category with
      | none => ps
      | some c => if c == "" then ps else ps.filter (fun p => p.category.toLower == c.toLower)
    let ps := match f.brand with
      | none => ps
      | some b => if b == "" then ps else ps.filter (fun p => p.brand.toLower == b.toLower)
    let ps := match f.isActive with
      | none => ps
      | some a => ps.filter (fun p => p.isActive == a)
    let ps := match f.minPrice with
      | none => ps
      | some m => ps.filter (fun p => m ≤ p.sellPrice)
    let ps := match f.maxPrice with
      | none => ps
      | some m => ps.filter (fun p => p.sellPrice ≤ m)
    let ps := match f.search with
      | none => ps
      | some q => if q == "" then ps else ps.filter (productSearchHit q)
    ps

/-- `deleteProduct(id)`: soft delete — set `isActive = false` and refresh
`updatedAt` on the product found by id; returns whether it existed. -/
def deleteProduct (s : Store) (id : String) (now : String) : Bool × Store :=
  let r := updateFirst (fun p => p.id == id)
    (fun p => { p with isActive := false, updatedAt := now }) s.products
  match r.1 with
  | none => (false, s)
  | some _ => (true, { s with products := r.2 })

/-! ### Quote computation (quotes page, FIREBASE_SETUP.md) -/

/-- Form-state line item of the quotes page (`LineItemForm`). -/
structure LineItemForm where
  productId : String
  quantity : ℚ
  unitPrice : ℚ
  discount : ℚ
deriving DecidableEq, Repr

/-- JavaScript `Math.round`: round half toward positive infinity. -/
def jsRound (x : ℚ) : ℤ := ⌊x + 1 / 2⌋

/-- `calculateLineTotal(item)`:
`Math.round(quantity * unitPrice * (1 - discount / 100) * 100) / 100`. -/
def calculateLineTotal (item : LineItemForm) : ℚ :=
  (jsRound (item.quantity * item.unitPrice * (1 - item.discount / 100) * 100) : ℚ) / 100

/-- `calculateSubtotal()`: `reduce((sum, item) => sum + calculateLineTotal(item), 0)`. -/
def calculateSubtotal (items : List LineItemForm) : ℚ :=
  items.foldl (fun sum item => sum + calculateLineTotal item) 0

/-- `calculateTax()`: `Math.round(calculateSubtotal() * taxRate / 100 * 100) / 100`. -/
def calculateTax (items : List LineItemForm) (taxRate : ℚ) : ℚ :=
  (jsRound (calculateSubtotal items * taxRate / 100 * 100) : ℚ) / 100

/-- `calculateTotal()`: `Math.round((calculateSubtotal() + calculateTax()) * 100) / 100`. -/
def calculateTotal (items : List LineItemForm) (taxRate : ℚ) : ℚ :=
  (jsRound ((calculateSubtotal items + calculateTax items taxRate) * 100) : ℚ) / 100

/-! ### Concrete sample data for witnesses and counterexamples -/

/-- A store with every collection empty. -/
def emptyStore : Store :=
  { projects := [], epics := [], tasks := [] }

/-- Build a task in project `p1` with the given id, status and dependencies. -/
def mkTask (id status : String) (deps : List String) : Task :=
  { id := id, title := id, status := status, depends_on := deps, notes := ""
    project_id := "p1" }

/-- Store where task `a` depends on the unfinished task `b`. -/
def blockedDemo : Store :=
  { emptyStore with tasks := [mkTask "a" "todo" ["b"], mkTask "b" "in_progress" []] }

/-- A dispatch handler that always succeeds. -/
def okHandler : WebhookEventHandler := fun _ _ _ => Except.ok ()

/-- A dispatch handler that throws for webhook `w1` and succeeds otherwise. -/
def failFirstHandler : WebhookEventHandler := fun _ _ w =>
  if w.id == "w1" then Except.error "delivery failed" else Except.ok ()

/-- An event-data object with no entity snapshots. -/
def emptyData : WebhookEventData := {}

/-- An enabled webhook scoped to project `P1`, subscribed to `task.created`. -/
def hookP1 : Webhook :=
  { id := "w1", name := "hook", url := "http://example.test"
    events := ["task.created"], enabled := true, project_id := some "P1"
    created_at := "t0", updated_at := "t0" }

/-- Store holding only `hookP1`. -/
def hookP1Store : Store := { emptyStore with webhooks := [hookP1] }

/-- Store holding `hookP1` with `enabled := false`. -/
def hookDisabledStore : Store :=
  { emptyStore with webhooks := [{ hookP1 with enabled := false }] }

/-- An enabled, project-unscoped webhook subscribed to `task.created`. -/
def hookPlain (i : String) : Webhook :=
  { id := i, name := i, url := "u", events := ["task.created"], enabled := true
    created_at := "t0", updated_at := "t0" }

/-- Store with two matching webhooks `w1` and `w2`. -/
def twoHookStore : Store :=
  { emptyStore with webhooks := [hookPlain "w1", hookPlain "w2"] }

/-- Store where task `b` lists the id `a` twice in `depends_on`. -/
def dupDepsStore : Store :=
  { emptyStore with tasks := [mkTask "a" "todo" [], mkTask "b" "todo" ["a", "a"]] }

/-- Store where task `b` depends on `a` and on the dangling id `c`. -/
def pruneDemo : Store :=
  { emptyStore with tasks := [mkTask "a" "todo" [], mkTask "b" "todo" ["a", "c"]] }

/-- Store with one done task and one todo task in project `p1`. -/
def archiveDemo : Store :=
  { emptyStore with tasks := [mkTask "a" "done" [], mkTask "b" "todo" []] }

/-- Store with project `P`, its epic `E`, and a task of `E`. -/
def cascadeDemo : Store :=
  { projects := [{ id := "P", name := "Proj" }]
    epics := [{ id := "E", title := "E", status := "todo", depends_on := []
                notes := "", project_id := "P" }]
    tasks := [{ mkTask "t1" "todo" [] with epic_id := some "E", project_id := "P" }] }

/-- A sample active product. -/
def demoProduct : Product :=
  { id := "pr1", sku := "SKU-1", name := "Widget", category := "Brakes"
    subcategory := "", brand := "", costPrice := 10, sellPrice := 25
    currency := "AUD", description := "", fitment := [], isActive := true
    createdAt := "t0", updatedAt := "t0" }

/-- Store holding one task and one product, for unknown-id probes. -/
def nfDemo : Store :=
  { emptyStore with tasks := [mkTask "a" "todo" []], products := [demoProduct] }

/-- Store holding only `demoProduct`. -/
def productDemo : Store := { emptyStore with products := [demoProduct] }

/-- Build a pending delivery record for the given webhook id. -/
def mkDelivery (i wid : String) : WebhookDelivery :=
  { id := i, webhook_id := wid, event := "task.created"
    payload := { event := "task.created", timestamp := "t0", webhook_id := wid
                 data := {} }
    status := "pending", attempts := 0, created_at := "t0" }

/-- Store with webhooks `w1`, `w2` and one delivery record for each. -/
def whDelDemo : Store :=
  { emptyStore with
    webhooks := [hookPlain "w1", hookPlain "w2"]
    webhook_deliveries := [mkDelivery "d1" "w1", mkDelivery "d2" "w2"] }

/-- The two line items of the spec's quote-arithmetic example. -/
def quoteDemoItems : List LineItemForm :=
  [{ productId := "p1", quantity := 2, unitPrice := 100, discount := 10 },
   { productId := "p2", quantity := 1, unitPrice := 50, discount := 0 }]

/-! ### Helper lemmas about keyed list lookups and updates -/

/-- A `find?` by key misses exactly when no element carries the key. -/
theorem find?_key_none {α : Type} (f : α → String) {l : List α} {k : String}
    (h : ∀ x ∈ l, f x ≠ k) : l.find? (fun x => f x == k) = none :=
  List.find?_eq_none.mpr (fun x hx => by simpa using h x hx)

/-- A `find?` by key hits when some element carries the key. -/
theorem find?_key_of_exists {α : Type} (f : α → String) {l : List α} {k : String}
    (h : ∃ x ∈ l, f x = k) : ∃ y, l.find? (fun x => f x == k) = some y := by
  cases hf : l.find? (fun x => f x == k) with
  | some y => exact ⟨y, rfl⟩
  | none =>
    obtain ⟨x, hx, hk⟩ := h
    rw [List.find?_eq_none] at hf
    exact absurd hk (by simpa using hf x hx)

/-- Two members of a list with nodup keys and the same key are equal. -/
theorem key_unique {α : Type} (f : α → String) {l : List α}
    (hnd : (l.map f).Nodup) {x y : α} (hx : x ∈ l) (hy : y ∈ l)
    (h : f x = f y) : x = y :=
  List.inj_on_of_nodup_map hnd hx hy h

/-- When keys are nodup, erasing the first key match equals filtering every
key match away. -/
theorem eraseP_key_eq_filter {α : Type} (f : α → String) {l : List α}
    (hnd : (l.map f).Nodup) (k : String) :
    l.eraseP (fun x => f x == k) = l.filter (fun x => f x != k) := by
  induction l with
  | nil => rfl
  | cons x xs ih =>
    rw [List.map_cons, List.nodup_cons] at hnd
    obtain ⟨hx, hxs⟩ := hnd
    by_cases hk : f x = k
    · rw [List.eraseP_cons_of_pos (by simpa using hk)]
      have hrest : xs.filter (fun y => f y != k) = xs := by
        rw [List.filter_eq_self]
        intro y hy
        have hne : f y ≠ f x := fun he => hx (he ▸ List.mem_map_of_mem f hy)
        simpa [hk] using fun he => hne (he.trans hk.symm)
      simp [List.filter_cons, hk, hrest]
    · rw [List.eraseP_cons_of_neg (by simpa using hk)]
      simp [List.filter_cons, hk, ih hxs]

/-- The value returned by `updateFirst` is the image of the found element. -/
theorem updateFirst_fst {α : Type} (p : α → Bool) (f : α → α) (l : List α) :
    (updateFirst p f l).1 = (l.find? p).map f := by
  induction l with
  | nil => rfl
  | cons x xs ih =>
    by_cases h : p x
    · simp [updateFirst, List.find?_cons_of_pos _ h, h]
    · simp [updateFirst, List.find?_cons_of_neg _ (by simpa using h), h, ih]

/-- When nothing matches, `updateFirst` leaves the list unchanged. -/
theorem updateFirst_snd_of_none {α : Type} {p : α → Bool} {f : α → α}
    {l : List α} (h : l.find? p = none) : (updateFirst p f l).2 = l := by
  induction l with
  | nil => rfl
  | cons x xs ih =>
    rw [List.find?_eq_none] at h
    have hx : ¬ p x := by simpa using h x (List.mem_cons_self x xs)
    have hxs : xs.find? p = none :=
      List.find?_eq_none.mpr (fun y hy => h y (List.mem_cons_of_mem x hy))
    simp [updateFirst, hx, ih hxs]

/-- When keys are nodup, updating the first key match equals mapping the
conditional update over the whole list. -/
theorem updateFirst_key_snd {α : Type} (f : α → String) (g : α → α)
    {l : List α} (hnd : (l.map f).Nodup) (k : String) :
    (updateFirst (fun x => f x == k) g l).2
      = l.map (fun x => if f x == k then g x else x) := by
  induction l with
  | nil => rfl
  | cons x xs ih =>
    rw [List.map_cons, List.nodup_cons] at hnd
    obtain ⟨hx, hxs⟩ := hnd
    cases hkb : (f x == k) with
    | true =>
      have hk : f x = k := by simpa using hkb
      have hrest : xs.map (fun y => if f y == k then g y else y) = xs := by
        have hpt : ∀ y ∈ xs, (if f y == k then g y else y) = id y := by
          intro y hy
          have hne : f y ≠ f x := fun he => hx (he ▸ List.mem_map_of_mem f hy)
          have hfk : ¬ ((f y == k) = true) := by
            simp only [beq_iff_eq]
            exact fun he => hne (he.trans hk.symm)
          rw [if_neg hfk]
          rfl
        rw [List.map_congr_left hpt, List.map_id]
      have hstep : (updateFirst (fun x => f x == k) g (x :: xs)).2 = g x :: xs := by
        simp [updateFirst, hkb]
      rw [hstep, List.map_cons, if_pos hkb, hrest]
    | false =>
      have hstep : (updateFirst (fun x => f x == k) g (x :: xs)).2
          = x :: (updateFirst (fun x => f x == k) g xs).2 := by
        simp [updateFirst, hkb]
      rw [hstep, ih hxs, List.map_cons, if_neg (by simp [hkb])]

/-- Pointwise equal predicates find the same element. -/
theorem find?_pred_congr {α : Type} {p q : α → Bool} {l : List α}
    (h : ∀ x ∈ l, p x = q x) : l.find? p = l.find? q := by
  induction l with
  | nil => rfl
  | cons x xs ih =>
    have hx := h x (List.mem_cons_self x xs)
    by_cases hp : p x
    · rw [List.find?_cons_of_pos _ hp, List.find?_cons_of_pos _ (hx ▸ hp)]
    · rw [List.find?_cons_of_neg _ (by simpa using hp),
        List.find?_cons_of_neg _ (by simp [← hx]; simpa using hp)]
      exact ih (fun y hy => h y (List.mem_cons_of_mem x hy))

/-! ### C1 — blocked-status derivation -/

/-- C1: for a store with distinct task ids (the data model's id invariant),
`isTaskBlocked t` is true iff the task exists, its `depends_on` is non-empty,
and at least one referenced id resolves to an existing task whose status is
not `done`; dangling dependency ids do not block, and an unknown task id
yields false. -/
theorem isTaskBlocked_spec (s : Store) (hnd : (s.tasks.map Task.id).Nodup)
    (tid : String) :
    isTaskBlocked s tid = true ↔
      ∃ t ∈ s.tasks, t.id = tid ∧ t.depends_on ≠ [] ∧
        ∃ d ∈ t.depends_on, ∃ u ∈ s.tasks, u.id = d ∧ u.status ≠ "done" := by
  have inner : ∀ d : String,
      (match s.tasks.find? (fun t => t.id == d) with
        | some dep => dep.status != "done"
        | none => false) = true ↔ ∃ u ∈ s.tasks, u.id = d ∧ u.status ≠ "done" := by
    intro d
    cases hg : s.tasks.find? (fun t => t.id == d) with
    | none =>
      simp only [hg]
      rw [List.find?_eq_none] at hg
      constructor
      · intro h; exact absurd h (by simp)
      · rintro ⟨u, hu, hid, -⟩
        exact absurd hid (by simpa using hg u hu)
    | some dep =>
      simp only [hg]
      have hdm := List.mem_of_find?_eq_some hg
      have hdid : dep.id = d := by simpa using List.find?_some hg
      constructor
      · intro h
        exact ⟨dep, hdm, hdid, by simpa using h⟩
      · rintro ⟨u, hu, hid, hst⟩
        have hu' : u = dep := key_unique Task.id hnd hu hdm (hid.trans hdid.symm)
        subst hu'
        simpa using hst
  unfold isTaskBlocked
  cases hf : s.tasks.find? (fun t => t.id == tid) with
  | none =>
    simp only [hf]
    rw [List.find?_eq_none] at hf
    constructor
    · intro h; exact absurd h (by simp)
    · rintro ⟨t, ht, hid, -⟩
      exact absurd hid (by simpa using hf t ht)
  | some task =>
    simp only [hf]
    have hmem := List.mem_of_find?_eq_some hf
    have htid : task.id = tid := by simpa using List.find?_some hf
    have outer : ∀ (P : Task → Prop),
        (∃ t ∈ s.tasks, t.id = tid ∧ P t) ↔ P task := by
      intro P
      constructor
      · rintro ⟨t, ht, hid, hP⟩
        have ht' : t = task := key_unique Task.id hnd ht hmem (hid.trans htid.symm)
        exact ht' ▸ hP
      · intro hP; exact ⟨task, hmem, htid, hP⟩
    rw [outer]
    by_cases hde : task.depends_on.isEmpty
    · rw [if_pos hde]
      have hnil : task.depends_on = [] := by simpa using hde
      simp [hnil]
    · rw [if_neg hde]
      have hne : task.depends_on ≠ [] := by
        intro h; exact hde (by simp [h])
      rw [List.any_eq_true]
      constructor
      · rintro ⟨d, hd, hmatch⟩
        exact ⟨hne, d, hd, (inner d).mp hmatch⟩
      · rintro ⟨-, d, hd, hex⟩
        exact ⟨d, hd, (inner d).mpr hex⟩

/-- Witness for C1: in `blockedDemo`, task `a` depends on the unfinished
task `b` and is therefore blocked. -/
theorem isTaskBlocked_spec_witness : isTaskBlocked blockedDemo "a" = true :=
  (isTaskBlocked_spec blockedDemo (by decide) "a").mpr (by decide)

/-! ### C2 — webhook matching -/

/-- C2 counterexample: the project-scoped webhook `hookP1` fires for a
`task.created` event carrying no project, although its `project_id` is set
and the event has no project for it to equal — the filter
`w.project_id && projectId && w.project_id !== projectId` skips the project
check whenever the event's project is absent. -/
theorem webhook_matching_cex :
    (triggerWebhooks (some okHandler) "t1" hookP1Store "task.created"
        emptyData none).map Prod.fst = ["w1"] ∧
      ¬ (hookP1.project_id = none ∨ hookP1.project_id = (none : Option String)) := by
  decide

/-- C2 (amended): a webhook matches iff it is enabled, subscribed to the
event type, and its `project_id` is unset or empty, or the event's project is
absent or empty, or the two are equal — the source treats a falsy (absent or
empty) project on either side as "no project filter".  The P1-scoped webhook
fires for the event in project P1, does not fire in project P2, and does not
fire when disabled. -/
theorem webhook_matching_amended :
    (∀ (w : Webhook) (e : String) (p : Option String),
        webhookMatches w e p = true ↔
          (w.enabled = true ∧ e ∈ w.events ∧
            (w.project_id.getD "" = "" ∨ p.getD "" = "" ∨ w.project_id = p)))
    ∧ (triggerWebhooks (some okHandler) "t1" hookP1Store "task.created"
        emptyData (some "P1")).map Prod.fst = ["w1"]
    ∧ (triggerWebhooks (some okHandler) "t1" hookP1Store "task.created"
        emptyData (some "P2")).map Prod.fst = []
    ∧ (triggerWebhooks (some okHandler) "t1" hookDisabledStore "task.created"
        emptyData (some "P1")).map Prod.fst = [] := by
  refine ⟨?_, by decide, by decide, by decide⟩
  intro w e p
  cases hen : w.enabled with
  | false => simp [webhookMatches, hen]
  | true =>
    cases hev : w.events.contains e with
    | false =>
      have hnm : e ∉ w.events := by
        intro hmm
        have hcon : w.events.contains e = true := List.elem_iff.mpr hmm
        rw [hcon] at hev
        cases hev
      simp [webhookMatches, hen, hev, hnm]
    | true =>
      have hm : e ∈ w.events := List.elem_iff.mp hev
      cases hc : (jsTruthy w.project_id && jsTruthy p && w.project_id != p) with
      | true =>
        have hmf : webhookMatches w e p = false := by
          simp [webhookMatches, hen, hev, hc, hm]
        have h3 := hc
        rw [Bool.and_eq_true, Bool.and_eq_true] at h3
        obtain ⟨⟨ha, hb⟩, hcc⟩ := h3
        have ha' : w.project_id.getD "" ≠ "" := by simpa [jsTruthy] using ha
        have hb' : p.getD "" ≠ "" := by simpa [jsTruthy] using hb
        have hcc' : w.project_id ≠ p := by simpa using hcc
        rw [hmf]
        simp only [Bool.false_eq_true, false_iff]
        rintro ⟨-, -, (h | h | h)⟩
        exacts [ha' h, hb' h, hcc' h]
      | false =>
        have hmt : webhookMatches w e p = true := by
          simp [webhookMatches, hen, hev, hc, hm]
        rw [hmt]
        constructor
        case mpr => exact fun _ => rfl
        intro _
        refine ⟨rfl, hm, ?_⟩
        cases hA : jsTruthy w.project_id with
        | false =>
          left
          simpa [jsTruthy] using hA
        | true =>
          cases hB : jsTruthy p with
          | false =>
            right; left
            simpa [jsTruthy] using hB
          | true =>
            cases hC : (w.project_id != p) with
            | false =>
              right; right
              simpa using hC
            | true =>
              rw [hA, hB, hC] at hc
              cases hc

/-! ### C3 — quote arithmetic -/

/-- C3: on line items `(qty 2, price 100, discount 10)` and
`(qty 1, price 50, discount 0)` with tax rate 10, the quote computation gives
line totals 180 and 50, subtotal 230, tax amount 23 and total 253. -/
theorem quote_arithmetic_example :
    calculateLineTotal { productId := "p1", quantity := 2, unitPrice := 100, discount := 10 } = 180 ∧
    calculateLineTotal { productId := "p2", quantity := 1, unitPrice := 50, discount := 0 } = 50 ∧
    calculateSubtotal quoteDemoItems = 230 ∧
    calculateTax quoteDemoItems 10 = 23 ∧
    calculateTotal quoteDemoItems 10 = 253 := by
  refine ⟨?_, ?_, ?_, ?_, ?_⟩ <;>
    norm_num [calculateLineTotal, calculateSubtotal, calculateTax,
      calculateTotal, jsRound, quoteDemoItems]

/-! ### C4 — cascade on delete -/

/-- C4: deleting an existing project removes it together with every epic and
task of that project (hard delete, no survivors); deleting an existing epic
removes the epic, clears `epic_id` on exactly the tasks that referenced it,
and deletes no task.  Stated for stores with distinct project and epic ids
(the data model's id invariant). -/
theorem delete_cascade_spec (s : Store) (P E : String) :
    ((∃ pr ∈ s.projects, pr.id = P) → (s.projects.map Project.id).Nodup →
      (deleteProject s P).projects = s.projects.filter (fun pr => pr.id != P) ∧
      (deleteProject s P).epics = s.epics.filter (fun e => e.project_id != P) ∧
      (deleteProject s P).tasks = s.tasks.filter (fun t => t.project_id != P))
    ∧ ((∃ ep ∈ s.epics, ep.id = E) → (s.epics.map Epic.id).Nodup →
      (deleteEpic s E).1 = true ∧
      (deleteEpic s E).2.epics = s.epics.filter (fun e => e.id != E) ∧
      (deleteEpic s E).2.tasks.length = s.tasks.length ∧
      List.Forall₂ (fun t t' : Task =>
          (t.epic_id = some E → t' = { t with epic_id := none }) ∧
          (t.epic_id ≠ some E → t' = t))
        s.tasks (deleteEpic s E).2.tasks) := by
  constructor
  · intro hex hnd
    obtain ⟨y, hy⟩ := find?_key_of_exists Project.id hex
    simp only [deleteProject, hy]
    exact ⟨eraseP_key_eq_filter Project.id hnd P, trivial, trivial⟩
  · intro hex hnd
    obtain ⟨y, hy⟩ := find?_key_of_exists Epic.id hex
    simp only [deleteEpic, hy]
    refine ⟨trivial, eraseP_key_eq_filter Epic.id hnd E, by simp, ?_⟩
    rw [List.forall₂_map_right_iff, List.forall₂_same]
    intro t ht
    constructor
    · intro hid
      simp [hid]
    · intro hne
      rw [if_neg (by simpa using hne)]

/-- Witness for C4: deleting project `P` in `cascadeDemo` leaves no task, and
deleting epic `E` there returns true. -/
theorem delete_cascade_spec_witness :
    (deleteProject cascadeDemo "P").tasks = [] ∧
      (deleteEpic cascadeDemo "E").1 = true := by
  have h := delete_cascade_spec cascadeDemo "P" "E"
  exact ⟨(h.1 (by decide) (by decide)).2.2.trans (by decide),
    (h.2 (by decide) (by decide)).1⟩

/-! ### C5 — dependency pruning on task delete -/

/-- C5 counterexample: task `b` lists `"a"` twice in `depends_on`; the
`indexOf` + single-`splice` pruning in `deleteTask` removes only the first
occurrence, so `"a"` survives in `b`'s dependencies after `deleteTask "a"`,
refuting "removes T from every other task's depends_on array". -/
theorem deleteTask_prune_cex :
    (deleteTask dupDepsStore "a").1 = true ∧
      ((deleteTask dupDepsStore "a").2.tasks.any
        (fun t => t.depends_on.contains "a")) = true := by
  decide

/-- C5 (amended): deleting an existing task (store with distinct task ids)
returns true, removes the task, and removes the first occurrence of its id
from every remaining task's `depends_on` — hence every occurrence whenever no
task lists the id more than once — preserving the order of the surviving
entries and leaving all other fields and tasks untouched. -/
theorem deleteTask_prune_amended (s : Store) (T : String)
    (hex : ∃ t ∈ s.tasks, t.id = T) (hnd : (s.tasks.map Task.id).Nodup) :
    (deleteTask s T).1 = true ∧
    List.Forall₂ (fun t t' : Task =>
        t' = { t with depends_on := t.depends_on.erase T } ∧
        (t.depends_on.count T ≤ 1 → T ∉ t'.depends_on))
      (s.tasks.filter (fun t => t.id != T)) (deleteTask s T).2.tasks := by
  obtain ⟨y, hy⟩ := find?_key_of_exists Task.id hex
  simp only [deleteTask, hy]
  refine ⟨trivial, ?_⟩
  rw [eraseP_key_eq_filter Task.id hnd T, List.forall₂_map_right_iff,
    List.forall₂_same]
  intro t ht
  refine ⟨rfl, ?_⟩
  intro hc hmm
  have h1 := List.count_erase_self T t.depends_on
  have h2 : 0 < (t.depends_on.erase T).count T := List.count_pos_iff.mpr hmm
  omega

/-- Witness for C5 (amended): deleting task `a` in `pruneDemo` succeeds. -/
theorem deleteTask_prune_amended_witness :
    (deleteTask pruneDemo "a").1 = true :=
  (deleteTask_prune_amended pruneDemo "a" (by decide) (by decide)).1

/-! ### C6 — archive sweep and its idempotence -/

/-- C6: `archiveDoneTasks p` returns the number of non-archived done tasks of
project `p`, sets `archived := true` on exactly those tasks (all other tasks
and all other fields unchanged, order preserved), and an immediate second run
archives nothing and returns 0. -/
theorem archiveDoneTasks_spec (s : Store) (p : String) :
    (archiveDoneTasks s p).1 =
      (s.tasks.filter (fun t =>
        t.project_id == p && t.status == "done" && !(t.archived.getD false))).length ∧
    List.Forall₂ (fun t t' : Task =>
        ((t.project_id = p ∧ t.status = "done" ∧ t.archived.getD false = false) →
          t' = { t with archived := some true }) ∧
        (¬ (t.project_id = p ∧ t.status = "done" ∧ t.archived.getD false = false) →
          t' = t))
      s.tasks (archiveDoneTasks s p).2.tasks ∧
    archiveDoneTasks (archiveDoneTasks s p).2 p = (0, (archiveDoneTasks s p).2) := by
  refine ⟨List.countP_eq_length_filter _ _, ?_, ?_⟩
  · simp only [archiveDoneTasks]
    rw [List.forall₂_map_right_iff, List.forall₂_same]
    intro t ht
    constructor
    · intro hcond
      have hb : shouldArchive p t = true := by
        simp [shouldArchive, hcond.1, hcond.2.1, hcond.2.2]
      simp [hb]
    · intro hncond
      cases hb : shouldArchive p t with
      | true =>
        exfalso
        apply hncond
        simp only [shouldArchive, Bool.and_eq_true, beq_iff_eq,
          Bool.not_eq_true'] at hb
        exact ⟨hb.1.1, hb.1.2, hb.2⟩
      | false => simp [hb]
  · have hzero : ∀ t' ∈ (archiveDoneTasks s p).2.tasks,
        shouldArchive p t' = false := by
      intro t' ht'
      simp only [archiveDoneTasks] at ht'
      rw [List.mem_map] at ht'
      obtain ⟨t, ht, rfl⟩ := ht'
      cases hb : shouldArchive p t with
      | true => simp [shouldArchive]
      | false => simpa using hb
    have hcount : (archiveDoneTasks s p).2.tasks.countP (shouldArchive p) = 0 :=
      List.countP_eq_zero.mpr (fun a ha => by simp [hzero a ha])
    have hmapid : (archiveDoneTasks s p).2.tasks.map
        (fun t => if shouldArchive p t then { t with archived := some true } else t)
        = (archiveDoneTasks s p).2.tasks := by
      have hpt : ∀ t ∈ (archiveDoneTasks s p).2.tasks,
          (if shouldArchive p t then { t with archived := some true } else t) = id t := by
        intro t ht
        rw [if_neg (by simp [hzero t ht])]
        rfl
      rw [List.map_congr_left hpt, List.map_id]
    have hstep : archiveDoneTasks (archiveDoneTasks s p).2 p
        = ((archiveDoneTasks s p).2.tasks.countP (shouldArchive p),
            { (archiveDoneTasks s p).2 with
              tasks := (archiveDoneTasks s p).2.tasks.map
                (fun t => if shouldArchive p t then { t with archived := some true } else t) }) := rfl
    rw [hstep, hcount, hmapid]

/-- Witness for C6: a second archive sweep over `archiveDemo` is the
identity and reports 0. -/
theorem archiveDoneTasks_spec_witness :
    archiveDoneTasks (archiveDoneTasks archiveDemo "p1").2 "p1"
      = (0, (archiveDoneTasks archiveDemo "p1").2) :=
  (archiveDoneTasks_spec archiveDemo "p1").2.2

/-! ### C7 — handler-failure isolation in triggerWebhooks -/

/-- C7: with a registered dispatch handler, `triggerWebhooks` invokes the
handler once per matched webhook, in order, for every handler — including
ones that throw or reject on some webhooks — and returns normally, since
failures are caught per webhook inside the loop; concretely, a handler that
throws on `w1` is still invoked for `w2`, and the failure is recorded
without escaping. -/
theorem triggerWebhooks_error_isolation :
    (∀ (h : WebhookEventHandler) (now : String) (s : Store) (e : String)
        (d : WebhookEventData) (p : Option String),
      (triggerWebhooks (some h) now s e d p).map Prod.fst =
        (s.webhooks.filter (fun w => webhookMatches w e p)).map Webhook.id)
    ∧ triggerWebhooks (some failFirstHandler) "t0" twoHookStore "task.created"
        emptyData none = [("w1", false), ("w2", true)] := by
  constructor
  · intro h now s e d p
    show (dispatchAll h e now d
        (s.webhooks.filter (fun w => webhookMatches w e p))).map Prod.fst = _
    generalize (s.webhooks.filter (fun w => webhookMatches w e p)) = ws
    induction ws with
    | nil => rfl
    | cons w ws ih =>
      cases hr : h e { event := e, timestamp := now, webhook_id := w.id, data := d } w with
      | ok u => simp [dispatchAll, hr, ih]
      | error msg => simp [dispatchAll, hr, ih]
  · decide

/-! ### C8 — not-found signalled by return value -/

/-- C8: on an id matching no stored entity, the core mutators signal
not-found by value and leave the store unchanged: `updateTask` returns
`undefined` (`none`), `deleteTask` returns false, `deleteProduct` returns
false. -/
theorem notFound_sentinels (s : Store) (tid pid now : String) (u : TaskUpdate)
    (ht : ∀ t ∈ s.tasks, t.id ≠ tid) (hp : ∀ q ∈ s.products, q.id ≠ pid) :
    updateTask s tid u = (none, s) ∧
    deleteTask s tid = (false, s) ∧
    deleteProduct s pid now = (false, s) := by
  have hft : s.tasks.find? (fun t => t.id == tid) = none := find?_key_none Task.id ht
  have hfp : s.products.find? (fun q => q.id == pid) = none :=
    find?_key_none Product.id hp
  refine ⟨?_, ?_, ?_⟩
  · simp only [updateTask, updateFirst_fst, hft, Option.map_none']
  · simp only [deleteTask, hft]
  · simp only [deleteProduct, updateFirst_fst, hfp, Option.map_none']

/-- Witness for C8 at `nfDemo` with the unknown id `zzz`. -/
theorem notFound_sentinels_witness :
    updateTask nfDemo "zzz" {} = (none, nfDemo) ∧
    deleteTask nfDemo "zzz" = (false, nfDemo) ∧
    deleteProduct nfDemo "zzz" "t9" = (false, nfDemo) :=
  notFound_sentinels nfDemo "zzz" "zzz" "t9" {} (by decide) (by decide)

/-! ### C9 — product soft delete -/

/-- C9: soft delete of an existing product (store with distinct product
ids): `deleteProduct` returns true, `getProduct` still returns the product
with `isActive = false` and the refreshed `updatedAt`, and the product no
longer appears in `listProducts {isActive: true}`. -/
theorem deleteProduct_soft_delete (s : Store) (id now : String) (pr : Product)
    (hnd : (s.products.map Product.id).Nodup)
    (hfind : getProduct s id = some pr) :
    (deleteProduct s id now).1 = true ∧
    getProduct (deleteProduct s id now).2 id
      = some { pr with isActive := false, updatedAt := now } ∧
    ∀ q ∈ listProducts (deleteProduct s id now).2 (some { isActive := some true }),
      q.id ≠ id := by
  have hfind' : s.products.find? (fun q => q.id == id) = some pr := hfind
  have hfst : (updateFirst (fun q => q.id == id)
      (fun q => { q with isActive := false, updatedAt := now }) s.products).1
      = some { pr with isActive := false, updatedAt := now } := by
    rw [updateFirst_fst, hfind']
    rfl
  have hsnd := updateFirst_key_snd Product.id
    (fun q => { q with isActive := false, updatedAt := now }) hnd id
  have hred : deleteProduct s id now
      = (true, { s with products := s.products.map (fun q =>
          if q.id == id then { q with isActive := false, updatedAt := now } else q) }) := by
    simp only [deleteProduct, hfst, hsnd]
  have hid_inv : ∀ q : Product,
      ((if q.id == id then { q with isActive := false, updatedAt := now } else q) : Product).id
        = q.id := by
    intro q
    by_cases h : (q.id == id) = true
    · rw [if_pos h]
    · rw [if_neg h]
  refine ⟨by rw [hred], ?_, ?_⟩
  · rw [hred]
    simp only [getProduct]
    rw [List.find?_map
      (fun q => if q.id == id then { q with isActive := false, updatedAt := now } else q)
      s.products]
    have hcongr : s.products.find?
        ((fun q : Product => q.id == id) ∘
          (fun q => if q.id == id then { q with isActive := false, updatedAt := now } else q))
        = s.products.find? (fun q => q.id == id) :=
      find?_pred_congr (fun x _ => by
        have h := hid_inv x
        simp only [Function.comp_apply]
        rw [h])
    rw [hcongr, hfind']
    have hprb : (pr.id == id) = true := by
      simpa using List.find?_some hfind'
    rw [Option.map_some', if_pos hprb]
  · rw [hred]
    intro q hq
    have hq' : q ∈ (s.products.map
        (fun q => if q.id == id then { q with isActive := false, updatedAt := now } else q)).filter
          (fun p => p.isActive == true) := hq
    have hqa : q.isActive = true := by simpa using List.of_mem_filter hq'
    have hqm := List.mem_of_mem_filter hq'
    obtain ⟨x, hx, rfl⟩ := List.mem_map.mp hqm
    intro heq
    by_cases hxb : (x.id == id) = true
    · rw [if_pos hxb] at hqa
      cases hqa
    · rw [if_neg hxb] at heq
      exact hxb (by simpa using heq)

/-- Witness for C9: soft-deleting `pr1` in `productDemo` keeps it readable
but inactive. -/
theorem deleteProduct_soft_delete_witness :
    (deleteProduct productDemo "pr1" "t2").1 = true ∧
    getProduct (deleteProduct productDemo "pr1" "t2").2 "pr1"
      = some { demoProduct with isActive := false, updatedAt := "t2" } := by
  have h := deleteProduct_soft_delete productDemo "pr1" "t2" demoProduct
    (by decide) (by decide)
  exact ⟨h.1, h.2.1⟩

/-! ### C10 — webhook delete cascades to its delivery records -/

/-- C10: deleting an existing webhook (store with distinct webhook ids)
returns true, removes the webhook, and removes exactly the delivery records
whose `webhook_id` is the deleted id, leaving other webhooks' delivery
records unchanged and in order. -/
theorem deleteWebhook_cascade_spec (s : Store) (id : String)
    (hex : ∃ w ∈ s.webhooks, w.id = id) (hnd : (s.webhooks.map Webhook.id).Nodup) :
    (deleteWebhook s id).1 = true ∧
    (deleteWebhook s id).2.webhooks = s.webhooks.filter (fun w => w.id != id) ∧
    (deleteWebhook s id).2.webhook_deliveries
      = s.webhook_deliveries.filter (fun d => d.webhook_id != id) := by
  obtain ⟨y, hy⟩ := find?_key_of_exists Webhook.id hex
  simp only [deleteWebhook, hy]
  exact ⟨trivial, eraseP_key_eq_filter Webhook.id hnd id, trivial⟩

/-- Witness for C10: deleting `w1` in `whDelDemo` keeps only `w2`'s delivery
record. -/
theorem deleteWebhook_cascade_spec_witness :
    (deleteWebhook whDelDemo "w1").1 = true ∧
    (deleteWebhook whDelDemo "w1").2.webhook_deliveries = [mkDelivery "d2" "w2"] := by
  have h := deleteWebhook_cascade_spec whDelDemo "w1" (by decide) (by decide)
  exact ⟨h.1, h.2.2.trans (by decide)⟩

end Flux
